import Mathlib

/-!
Verification of the MP3 frame-counting core (`mp3Parser.service.ts`).

The byte buffer is embedded as a list of naturals (a real `Buffer` holds
octets `< 256`); reading out of range yields `0`, mirroring the source's
`buffer[i] ?? 0`.  JavaScript string comparison through
`buffer.toString('ascii', a, b)` is embedded byte-wise: Node's `ascii`
decoding unsets the high bit of every byte before comparing, so the
embedding masks each byte with `0x7F`.
-/

/-- A byte buffer: the whole file as a list of octets. -/
abbrev Buffer := List Nat

/-- `buffer[i] ?? 0`: the byte at index `i`, or `0` out of range. -/
def getByte (buf : Buffer) (i : Nat) : Nat := buf.getD i 0

/-- `buffer.toString('ascii', s, e)` viewed as the list of decoded byte
values: Node clamps `e` to the buffer length and unsets the high bit of
each byte (`& 0x7F`) when decoding as `ascii`. -/
def asciiSlice (buf : Buffer) (s e : Nat) : List Nat :=
  (List.range' s (min e buf.length - s)).map (fun i => getByte buf i &&& 0x7F)

/-- `MpegVersion.MPEG_1` (the two version bits). -/
def MPEG_1 : Nat := 3

/-- `MpegLayer.LAYER_3` (the two layer bits). -/
def LAYER_3 : Nat := 1

/-- `ChannelMode.MONO` (the two channel-mode bits). -/
def MONO : Nat := 3

/-- Bitrate table for MPEG Version 1, Layer 3 (kbps); index 0 = free,
index 15 = bad, both unsupported (`null`). -/
def BITRATE_TABLE_V1_L3 : List (Option Nat) :=
  [none, some 32, some 40, some 48, some 56, some 64, some 80, some 96,
   some 112, some 128, some 160, some 192, some 224, some 256, some 320, none]

/-- Sample rate table for MPEG Version 1 (Hz); index 3 = reserved (`null`). -/
def SAMPLE_RATE_TABLE_V1 : List (Option Nat) :=
  [some 44100, some 48000, some 32000, none]

/-- Decoded MP3 frame header (`Mp3FrameHeader`); the two-bit enumerations
are kept as their raw bit values. -/
structure Mp3FrameHeader where
  mpegVersion : Nat
  layer : Nat
  hasCrc : Bool
  bitrate : Nat
  sampleRate : Nat
  hasPadding : Bool
  channelMode : Nat
  frameSize : Nat
deriving Repr, DecidableEq

/-- Parsed ID3v2 tag (`Id3v2Tag`), with the nested `version`/`flags`
objects flattened into fields. -/
structure Id3v2Tag where
  versionMajor : Nat
  versionMinor : Nat
  unsynchronisation : Bool
  extendedHeader : Bool
  experimental : Bool
  footer : Bool
  size : Nat
  totalSize : Nat
deriving Repr, DecidableEq

/-- Result of a successful parse (`Mp3ParseResult`). -/
structure Mp3ParseResult where
  frameCount : Nat
  id3v2Tag : Option Id3v2Tag
  hasId3v1Tag : Bool
deriving Repr, DecidableEq

/-- The `InvalidMp3Error` messages thrown by `countMp3Frames` and
`validateMp3Buffer`, as a closed error type. -/
inductive ParseError where
  | emptyFile
  | noAudioData
  | noValidFrames
  | tooSmall
  | notRecognizable
deriving Repr, DecidableEq

/-- `decodeSynchsafeInt`: reads 4 bytes (out-of-range as `0`) and packs
them with `(b0 << 21) | (b1 << 14) | (b2 << 7) | b3`.  Note the source
applies no `& 0x7F` mask to the bytes. -/
def decodeSynchsafeInt (buf : Buffer) (offset : Nat) : Nat :=
  (getByte buf offset <<< 21) ||| (getByte buf (offset + 1) <<< 14) |||
    (getByte buf (offset + 2) <<< 7) ||| getByte buf (offset + 3)

/-- Modelled from the spec: the packing the spec describes for the
synchsafe decoder, "taking the low 7 bits of each byte" before packing
MSB-first.  Used to compare the source's unmasked packing against the
spec's words. -/
def decodeSynchsafeSpec7 (buf : Buffer) (offset : Nat) : Nat :=
  ((getByte buf offset &&& 0x7F) <<< 21) |||
    ((getByte buf (offset + 1) &&& 0x7F) <<< 14) |||
    ((getByte buf (offset + 2) &&& 0x7F) <<< 7) |||
    (getByte buf (offset + 3) &&& 0x7F)

/-- Modelled from the spec: re-encoding a decoded synchsafe value at 7
bits per byte, MSB-first, for the round-trip property. -/
def encodeSynchsafe7 (n : Nat) : List Nat :=
  [(n >>> 21) &&& 0x7F, (n >>> 14) &&& 0x7F, (n >>> 7) &&& 0x7F, n &&& 0x7F]

/-- `parseId3v2Tag`: the optional ID3v2 tag descriptor at the start of
the buffer. -/
def parseId3v2Tag (buf : Buffer) : Option Id3v2Tag :=
  if buf.length < 10 then none
  else if asciiSlice buf 0 3 ≠ [0x49, 0x44, 0x33] then none
  else
    let flags := getByte buf 5
    let footer : Bool := flags &&& 0x10 != 0
    let size := decodeSynchsafeInt buf 6
    some {
      versionMajor := getByte buf 3
      versionMinor := getByte buf 4
      unsynchronisation := flags &&& 0x80 != 0
      extendedHeader := flags &&& 0x40 != 0
      experimental := flags &&& 0x20 != 0
      footer := footer
      size := size
      totalSize := 10 + size + (if footer then 10 else 0)
    }

/-- `hasId3v1Tag`: true iff the buffer is at least 128 bytes long and the
3 bytes at `length - 128` decode to `TAG`. -/
def hasId3v1Tag (buf : Buffer) : Bool :=
  if buf.length < 128 then false
  else asciiSlice buf (buf.length - 128) (buf.length - 128 + 3) == [0x54, 0x41, 0x47]

/-- `isValidSyncWord`: the 11 sync bits at `offset`, with the source's
bounds check `offset + 1 >= buffer.length`. -/
def isValidSyncWord (buf : Buffer) (offset : Nat) : Bool :=
  if offset + 1 ≥ buf.length then false
  else (getByte buf offset == 0xFF) && ((getByte buf (offset + 1) &&& 0xE0) == 0xE0)

/-- `parseFrameHeader`: decodes the 4-byte frame header at `offset`,
returning `none` for anything but an MPEG-1 Layer III header with a
usable bitrate and sample-rate index. -/
def parseFrameHeader (buf : Buffer) (offset : Nat) : Option Mp3FrameHeader :=
  if offset + 4 > buf.length then none
  else if !isValidSyncWord buf offset then none
  else if (getByte buf (offset + 1) >>> 3) &&& 3 ≠ MPEG_1 then none
  else if (getByte buf (offset + 1) >>> 1) &&& 3 ≠ LAYER_3 then none
  else
    match BITRATE_TABLE_V1_L3.getD ((getByte buf (offset + 2) >>> 4) &&& 0xF) none with
    | none => none
    | some bitrate =>
      match SAMPLE_RATE_TABLE_V1.getD ((getByte buf (offset + 2) >>> 2) &&& 3) none with
      | none => none
      | some sampleRate =>
        some {
          mpegVersion := (getByte buf (offset + 1) >>> 3) &&& 3
          layer := (getByte buf (offset + 1) >>> 1) &&& 3
          hasCrc := getByte buf (offset + 1) &&& 1 == 0
          bitrate := bitrate
          sampleRate := sampleRate
          hasPadding := (getByte buf (offset + 2) >>> 1) &&& 1 == 1
          channelMode := (getByte buf (offset + 3) >>> 6) &&& 3
          frameSize := 144 * bitrate * 1000 / sampleRate +
            (if (getByte buf (offset + 2) >>> 1) &&& 1 == 1 then 1 else 0)
        }

/-- `isXingInfoFrame`: whether the frame starting at `frameOffset` holds a
`Xing` or `Info` VBR marker after the side information. -/
def isXingInfoFrame (buf : Buffer) (frameOffset : Nat) (header : Mp3FrameHeader) : Bool :=
  let base := if header.channelMode == MONO then frameOffset + 4 + 17 else frameOffset + 4 + 32
  let xingOffset := if header.hasCrc then base + 2 else base
  if xingOffset + 4 > buf.length then false
  else
    let marker := asciiSlice buf xingOffset (xingOffset + 4)
    marker == [0x58, 0x69, 0x6E, 0x67] || marker == [0x49, 0x6E, 0x66, 0x6F]

/-- `findAudioStart`: the ID3v2 tag's `totalSize`, or `0` without a tag. -/
def findAudioStart (buf : Buffer) : Nat :=
  match parseId3v2Tag buf with
  | some tag => tag.totalSize
  | none => 0

/-- `findAudioEnd`: `length - 128` when an ID3v1 tag is present,
otherwise the buffer length. -/
def findAudioEnd (buf : Buffer) : Nat :=
  if hasId3v1Tag buf then buf.length - 128 else buf.length

/-- The resynchronization scan of `countMp3Frames`: the first offset `i`
with `position + 1 <= i < min (position + 4096) audioEnd` where the sync
word validates and `parseFrameHeader` succeeds. -/
def resyncScan (buf : Buffer) (audioEnd position : Nat) : Option Nat :=
  (List.range' (position + 1) (min (position + 4096) audioEnd - (position + 1))).find?
    (fun i => isValidSyncWord buf i && (parseFrameHeader buf i).isSome)

/-- The `while` loop of `countMp3Frames`, with an explicit iteration
budget `fuel`; `none` means the budget was exhausted with the loop still
running.  A budget of `audioEnd - position` always suffices, which is
proved below. -/
def walkFuel (buf : Buffer) (audioEnd : Nat) :
    Nat → Nat → Nat → Bool → Option Nat
  | 0, position, frameCount, _ =>
    if position < audioEnd then none else some frameCount
  | fuel + 1, position, frameCount, foundFirstFrame =>
    if position < audioEnd then
      match parseFrameHeader buf position with
      | some header =>
        let isMetadataFrame := !foundFirstFrame && isXingInfoFrame buf position header
        walkFuel buf audioEnd fuel (position + header.frameSize)
          (if isMetadataFrame then frameCount else frameCount + 1) true
      | none =>
        if foundFirstFrame then
          match resyncScan buf audioEnd position with
          | some i => walkFuel buf audioEnd fuel i frameCount true
          | none => some frameCount
        else
          walkFuel buf audioEnd fuel (position + 1) frameCount foundFirstFrame
    else some frameCount

/-- The frame walk of `countMp3Frames` from `position`: the final
`frameCount`.  Runs the loop with the (always sufficient) budget
`audioEnd - position`. -/
def walk (buf : Buffer) (audioEnd position frameCount : Nat) (foundFirstFrame : Bool) : Nat :=
  (walkFuel buf audioEnd (audioEnd - position) position frameCount foundFirstFrame).getD 0

/-- `countMp3Frames`: the top-level frame counter, with the three
`InvalidMp3Error` throws embedded as `Except.error`. -/
def countMp3Frames (buf : Buffer) : Except ParseError Mp3ParseResult :=
  if buf.length = 0 then .error .emptyFile
  else
    let audioStart := findAudioStart buf
    let audioEnd := findAudioEnd buf
    if audioStart ≥ audioEnd then .error .noAudioData
    else
      let frameCount := walk buf audioEnd audioStart 0 false
      if frameCount = 0 then .error .noValidFrames
      else .ok {
        frameCount := frameCount
        id3v2Tag := parseId3v2Tag buf
        hasId3v1Tag := hasId3v1Tag buf
      }

/-- `validateMp3Buffer`: the lightweight pre-check, with its two
`InvalidMp3Error` throws embedded as `Except.error`. -/
def validateMp3Buffer (buf : Buffer) : Except ParseError Unit :=
  if buf.length < 10 then .error .tooSmall
  else
    let hasId3v2 := asciiSlice buf 0 3 == [0x49, 0x44, 0x33]
    let hasFrameSync := isValidSyncWord buf 0
    if !hasId3v2 && !hasFrameSync then
      if (List.range (min buf.length 4096)).any
          (fun i => isValidSyncWord buf i && (parseFrameHeader buf i).isSome) then
        .ok ()
      else .error .notRecognizable
    else .ok ()

/-- Fixture: a canonical 128 kbps / 44100 Hz / mono frame header, no CRC
(bytes `FF FB 90 C0`). -/
def sampleFrame : Buffer := [0xFF, 0xFB, 0x90, 0xC0]

/-- Fixture: the header `parseFrameHeader` decodes from `sampleFrame`. -/
def sampleHeader : Mp3FrameHeader :=
  { mpegVersion := 3, layer := 1, hasCrc := false, bitrate := 128, sampleRate := 44100,
    hasPadding := false, channelMode := 3, frameSize := 417 }

/-- Fixture: the same frame with the protection bit clear (CRC present),
bytes `FF FA 90 C0`. -/
def sampleFrameCrc : Buffer := [0xFF, 0xFA, 0x90, 0xC0]

/-- Fixture: the header `parseFrameHeader` decodes from `sampleFrameCrc`. -/
def sampleHeaderCrc : Mp3FrameHeader :=
  { mpegVersion := 3, layer := 1, hasCrc := true, bitrate := 128, sampleRate := 44100,
    hasPadding := false, channelMode := 3, frameSize := 417 }

/-- Fixture: `sampleFrame` followed by 17 bytes of side information and
a genuine ASCII `Xing` marker at offset 21 (25 bytes in all). -/
def xingBuf : Buffer :=
  [0xFF, 0xFB, 0x90, 0xC0] ++ List.replicate 17 0 ++ [0x58, 0x69, 0x6E, 0x67]

/-- Fixture: the same frame but with `0xD8` (`0x58` with the high bit
set) in place of the `X` of the `Xing` marker. -/
def xingMaskedBuf : Buffer :=
  [0xFF, 0xFB, 0x90, 0xC0] ++ List.replicate 17 0 ++ [0xD8, 0x69, 0x6E, 0x67]

/-- Fixture: ten bytes starting with `0xC9 0x44 0x33` — not ASCII `ID3`
(the first byte has its high bit set) and with no sync word anywhere. -/
def maskedId3Buf : Buffer := [0xC9, 0x44, 0x33, 0, 0, 0, 0, 0, 0, 0]

/-- Fixture: a 10-byte buffer that is exactly an ID3v2 header whose
synchsafe size field is the maximum `0x7F 0x7F 0x7F 0x7F`. -/
def id3HugeBuf : Buffer := [0x49, 0x44, 0x33, 3, 0, 0, 0x7F, 0x7F, 0x7F, 0x7F]

/-- Fixture: the tag `parseId3v2Tag` decodes from `id3HugeBuf`; its
`totalSize` (268435465) far exceeds the buffer length. -/
def id3HugeTag : Id3v2Tag :=
  { versionMajor := 3, versionMinor := 0, unsynchronisation := false,
    extendedHeader := false, experimental := false, footer := false,
    size := 268435455, totalSize := 268435465 }

/-! ### Bit-packing arithmetic -/

/-- Packing a value above `k` low bits with `|||` is plain addition. -/
theorem shiftLeft_lor_eq_add (a b k : Nat) (hb : b < 2 ^ k) :
    (a <<< k) ||| b = a * 2 ^ k + b := by
  apply Nat.eq_of_testBit_eq
  intro j
  rw [Nat.testBit_lor, Nat.testBit_shiftLeft, Nat.mul_comm,
    Nat.testBit_mul_pow_two_add a hb j]
  by_cases h : j < k
  · have h2 : ¬ (j ≥ k) := by omega
    simp [h, h2]
  · have hbj : b.testBit j = false :=
      Nat.testBit_lt_two_pow (lt_of_lt_of_le hb (Nat.pow_le_pow_right (by norm_num) (by omega)))
    simp [h, Nat.le_of_not_lt, hbj]

/-- Masking with `0x7F` is reduction mod `128`. -/
theorem and_127_eq_mod (x : Nat) : x &&& 0x7F = x % 128 := by
  have h := Nat.and_pow_two_sub_one_eq_mod x 7
  norm_num at h
  exact h

/-- The raw synchsafe packing, as a sum, for bytes below `128`. -/
theorem decode_eq_sum (b0 b1 b2 b3 : Nat)
    (h1 : b1 < 128) (h2 : b2 < 128) (h3 : b3 < 128) :
    (b0 <<< 21) ||| (b1 <<< 14) ||| (b2 <<< 7) ||| b3 =
      b0 * 2097152 + b1 * 16384 + b2 * 128 + b3 := by
  have e23 : (b2 <<< 7) ||| b3 = b2 * 128 + b3 := by
    have := shiftLeft_lor_eq_add b2 b3 7 (by omega)
    norm_num at this
    exact this
  have lt23 : b2 * 128 + b3 < 2 ^ 14 := by norm_num; omega
  have e123 : (b1 <<< 14) ||| ((b2 <<< 7) ||| b3) = b1 * 16384 + (b2 * 128 + b3) := by
    rw [e23]
    have := shiftLeft_lor_eq_add b1 (b2 * 128 + b3) 14 lt23
    norm_num at this
    exact this
  have lt123 : b1 * 16384 + (b2 * 128 + b3) < 2 ^ 21 := by norm_num; omega
  have e0123 : (b0 <<< 21) ||| ((b1 <<< 14) ||| ((b2 <<< 7) ||| b3)) =
      b0 * 2097152 + (b1 * 16384 + (b2 * 128 + b3)) := by
    rw [e123]
    have := shiftLeft_lor_eq_add b0 (b1 * 16384 + (b2 * 128 + b3)) 21 lt123
    norm_num at this
    exact this
  calc (b0 <<< 21) ||| (b1 <<< 14) ||| (b2 <<< 7) ||| b3
      = (b0 <<< 21) ||| ((b1 <<< 14) ||| ((b2 <<< 7) ||| b3)) := by
        rw [Nat.lor_assoc, Nat.lor_assoc]
    _ = b0 * 2097152 + (b1 * 16384 + (b2 * 128 + b3)) := e0123
    _ = b0 * 2097152 + b1 * 16384 + b2 * 128 + b3 := by omega

/-! ### Frame-header inversion -/

/-- A successful bitrate lookup lands on a table value, and only for an
index that is neither 0 (free) nor 15 (bad). -/
theorem bitrate_table_spec {idx br : Nat}
    (h : BITRATE_TABLE_V1_L3.getD idx none = some br) :
    br ∈ [32, 40, 48, 56, 64, 80, 96, 112, 128, 160, 192, 224, 256, 320] ∧
      idx ≠ 0 ∧ idx ≠ 15 := by
  have h16 : idx < 16 := by
    by_contra hc
    push_neg at hc
    rw [List.getD_eq_getElem?_getD,
      List.getElem?_eq_none (by simpa [BITRATE_TABLE_V1_L3] using hc)] at h
    simp at h
  interval_cases idx <;> simp_all [BITRATE_TABLE_V1_L3]

/-- A successful sample-rate lookup lands on a table value, and only for
an index other than 3 (reserved). -/
theorem sample_rate_table_spec {idx sr : Nat}
    (h : SAMPLE_RATE_TABLE_V1.getD idx none = some sr) :
    sr ∈ [44100, 48000, 32000] ∧ idx ≠ 3 := by
  have h4 : idx < 4 := by
    by_contra hc
    push_neg at hc
    rw [List.getD_eq_getElem?_getD,
      List.getElem?_eq_none (by simpa [SAMPLE_RATE_TABLE_V1] using hc)] at h
    simp at h
  interval_cases idx <;> simp_all [SAMPLE_RATE_TABLE_V1]

/-- Everything a successful `parseFrameHeader` guarantees about the
returned header and the bytes it came from. -/
theorem parseFrameHeader_some_spec {buf : Buffer} {off : Nat} {h : Mp3FrameHeader}
    (hp : parseFrameHeader buf off = some h) :
    off + 4 ≤ buf.length ∧ isValidSyncWord buf off = true ∧
    h.mpegVersion = MPEG_1 ∧ h.layer = LAYER_3 ∧
    h.hasCrc = (getByte buf (off + 1) &&& 1 == 0) ∧
    h.hasPadding = ((getByte buf (off + 2) >>> 1) &&& 1 == 1) ∧
    h.channelMode = (getByte buf (off + 3) >>> 6) &&& 3 ∧
    h.bitrate ∈ [32, 40, 48, 56, 64, 80, 96, 112, 128, 160, 192, 224, 256, 320] ∧
    h.sampleRate ∈ [44100, 48000, 32000] ∧
    h.frameSize = 144 * h.bitrate * 1000 / h.sampleRate + (if h.hasPadding then 1 else 0) := by
  unfold parseFrameHeader at hp
  split at hp
  · exact absurd hp (by simp)
  next hlen =>
  split at hp
  · exact absurd hp (by simp)
  next hsync =>
  split at hp
  · exact absurd hp (by simp)
  next hver =>
  split at hp
  · exact absurd hp (by simp)
  next hlay =>
  split at hp
  · exact absurd hp (by simp)
  next hbr =>
  split at hp
  · exact absurd hp (by simp)
  next hsr =>
  obtain ⟨hbrmem, -, -⟩ := bitrate_table_spec hbr
  obtain ⟨hsrmem, -⟩ := sample_rate_table_spec hsr
  injection hp with hp
  subst hp
  have hsync2 : isValidSyncWord buf off = true := by simpa using hsync
  have hver2 : (getByte buf (off + 1) >>> 3) &&& 3 = MPEG_1 := not_not.mp hver
  have hlay2 : (getByte buf (off + 1) >>> 1) &&& 3 = LAYER_3 := not_not.mp hlay
  exact ⟨by omega, hsync2, hver2, hlay2, rfl, rfl, rfl, hbrmem, hsrmem, by simp⟩

/-- The frame-size formula is at least 96 for every supported
bitrate/sample-rate pair. -/
theorem frameSize_formula_lb {br sr : Nat}
    (hbr : br ∈ [32, 40, 48, 56, 64, 80, 96, 112, 128, 160, 192, 224, 256, 320])
    (hsr : sr ∈ [44100, 48000, 32000]) :
    96 ≤ 144 * br * 1000 / sr := by
  fin_cases hbr <;> fin_cases hsr <;> decide

/-- Every header `parseFrameHeader` accepts has a positive frame size, so
the walk always advances. -/
theorem parseFrameHeader_frameSize_pos {buf : Buffer} {off : Nat} {h : Mp3FrameHeader}
    (hp : parseFrameHeader buf off = some h) : 1 ≤ h.frameSize := by
  obtain ⟨-, -, -, -, -, -, -, hbr, hsr, hfs⟩ := parseFrameHeader_some_spec hp
  have := frameSize_formula_lb hbr hsr
  rw [hfs]
  split <;> omega

/-! ### Scan characterization -/

/-- A successful `find?` over `range'` returns the least index in the
window satisfying the predicate. -/
theorem range'_find?_eq_some {p : Nat → Bool} {s n j : Nat}
    (h : (List.range' s n).find? p = some j) :
    s ≤ j ∧ j < s + n ∧ p j = true ∧ ∀ k, s ≤ k → k < j → p k = false := by
  induction n generalizing s with
  | zero => simp at h
  | succ n ih =>
    rw [List.range'_succ, List.find?_cons] at h
    rcases hps : p s with _ | _
    · rw [hps] at h
      obtain ⟨h1, h2, h3, h4⟩ := ih h
      refine ⟨by omega, by omega, h3, ?_⟩
      intro k hk1 hk2
      rcases Nat.eq_or_lt_of_le hk1 with rfl | hk3
      · exact hps
      · exact h4 k hk3 hk2
    · rw [hps] at h
      injection h with h
      subst h
      exact ⟨Nat.le_refl _, by omega, hps, by omega⟩

/-- A failed `find?` over `range'` means no index in the window satisfies
the predicate. -/
theorem range'_find?_eq_none {p : Nat → Bool} {s n : Nat}
    (h : (List.range' s n).find? p = none) :
    ∀ k, s ≤ k → k < s + n → p k = false := by
  induction n generalizing s with
  | zero => omega
  | succ n ih =>
    rw [List.range'_succ, List.find?_cons] at h
    rcases hps : p s with _ | _
    · rw [hps] at h
      intro k hk1 hk2
      rcases Nat.eq_or_lt_of_le hk1 with rfl | hk3
      · exact hps
      · exact ih h k hk3 (by omega)
    · rw [hps] at h
      exact absurd h (by simp)

/-- What a successful resynchronization guarantees: the found offset is
the least one in the bounded window where the sync word validates and a
header parses. -/
theorem resyncScan_some_spec {buf : Buffer} {audioEnd position j : Nat}
    (h : resyncScan buf audioEnd position = some j) :
    position + 1 ≤ j ∧ j < min (position + 4096) audioEnd ∧
      isValidSyncWord buf j = true ∧ (parseFrameHeader buf j).isSome = true ∧
      ∀ k, position + 1 ≤ k → k < j →
        ¬(isValidSyncWord buf k = true ∧ (parseFrameHeader buf k).isSome = true) := by
  unfold resyncScan at h
  obtain ⟨h1, h2, h3, h4⟩ := range'_find?_eq_some h
  rw [Bool.and_eq_true] at h3
  refine ⟨h1, by omega, h3.1, h3.2, ?_⟩
  intro k hk1 hk2 hk3
  have := h4 k hk1 hk2
  rw [hk3.1, hk3.2] at this
  simp at this

/-- What a failed resynchronization guarantees: no offset in the bounded
window both validates the sync word and parses as a header. -/
theorem resyncScan_none_spec {buf : Buffer} {audioEnd position : Nat}
    (h : resyncScan buf audioEnd position = none) :
    ∀ k, position + 1 ≤ k → k < min (position + 4096) audioEnd →
      ¬(isValidSyncWord buf k = true ∧ (parseFrameHeader buf k).isSome = true) := by
  unfold resyncScan at h
  intro k hk1 hk2 hk3
  have := range'_find?_eq_none h k hk1 (by omega)
  rw [hk3.1, hk3.2] at this
  simp at this

/-! ### The frame walk -/

/-- Once the position reaches `audioEnd` the loop stops, whatever budget
is left. -/
theorem walkFuel_done {buf : Buffer} {audioEnd position : Nat}
    (h : audioEnd ≤ position) (fuel frameCount : Nat) (f : Bool) :
    walkFuel buf audioEnd fuel position frameCount f = some frameCount := by
  cases fuel <;> simp [walkFuel, Nat.not_lt.mpr h]

/-- One loop iteration, header case: count (unless a first-frame
Xing/Info match) and advance by the frame size. -/
theorem walkFuel_succ_header {buf : Buffer} {audioEnd position : Nat}
    {header : Mp3FrameHeader} (hpos : position < audioEnd)
    (hph : parseFrameHeader buf position = some header)
    (fuel frameCount : Nat) (f : Bool) :
    walkFuel buf audioEnd (fuel + 1) position frameCount f =
      walkFuel buf audioEnd fuel (position + header.frameSize)
        (if !f && isXingInfoFrame buf position header then frameCount else frameCount + 1)
        true := by
  simp only [walkFuel, if_pos hpos, hph]

/-- One loop iteration, first-frame-seek case: advance by one byte. -/
theorem walkFuel_succ_seek {buf : Buffer} {audioEnd position : Nat}
    (hpos : position < audioEnd) (hph : parseFrameHeader buf position = none)
    (fuel frameCount : Nat) :
    walkFuel buf audioEnd (fuel + 1) position frameCount false =
      walkFuel buf audioEnd fuel (position + 1) frameCount false := by
  simp only [walkFuel, if_pos hpos, hph]
  simp

/-- One loop iteration, successful resync: jump to the found offset
without counting. -/
theorem walkFuel_succ_resync_some {buf : Buffer} {audioEnd position i : Nat}
    (hpos : position < audioEnd) (hph : parseFrameHeader buf position = none)
    (hrs : resyncScan buf audioEnd position = some i)
    (fuel frameCount : Nat) :
    walkFuel buf audioEnd (fuel + 1) position frameCount true =
      walkFuel buf audioEnd fuel i frameCount true := by
  simp only [walkFuel, if_pos hpos, hph, hrs]
  simp

/-- One loop iteration, failed resync: the loop breaks with the current
count. -/
theorem walkFuel_succ_resync_none {buf : Buffer} {audioEnd position : Nat}
    (hpos : position < audioEnd) (hph : parseFrameHeader buf position = none)
    (hrs : resyncScan buf audioEnd position = none)
    (fuel frameCount : Nat) :
    walkFuel buf audioEnd (fuel + 1) position frameCount true = some frameCount := by
  simp only [walkFuel, if_pos hpos, hph, hrs]
  simp

/-- The loop result does not depend on the budget, once the budget covers
the remaining bytes. -/
theorem walkFuel_fuel_irrel {buf : Buffer} {audioEnd : Nat} :
    ∀ {fuel fuel' position frameCount : Nat} {f : Bool},
      audioEnd - position ≤ fuel → audioEnd - position ≤ fuel' →
      walkFuel buf audioEnd fuel position frameCount f =
        walkFuel buf audioEnd fuel' position frameCount f := by
  intro fuel
  induction fuel with
  | zero =>
    intro fuel' pos c f h h'
    have hd : audioEnd ≤ pos := by omega
    rw [walkFuel_done hd, walkFuel_done hd]
  | succ fuel ih =>
    intro fuel' pos c f h h'
    cases fuel' with
    | zero =>
      have hd : audioEnd ≤ pos := by omega
      rw [walkFuel_done hd, walkFuel_done hd]
    | succ fuel' =>
      by_cases hpos : pos < audioEnd
      · rcases hph : parseFrameHeader buf pos with _ | header
        · cases f with
          | false =>
            rw [walkFuel_succ_seek hpos hph, walkFuel_succ_seek hpos hph]
            exact ih (by omega) (by omega)
          | true =>
            rcases hrs : resyncScan buf audioEnd pos with _ | i
            · rw [walkFuel_succ_resync_none hpos hph hrs,
                walkFuel_succ_resync_none hpos hph hrs]
            · obtain ⟨hi1, hi2, -, -, -⟩ := resyncScan_some_spec hrs
              rw [walkFuel_succ_resync_some hpos hph hrs,
                walkFuel_succ_resync_some hpos hph hrs]
              exact ih (by omega) (by omega)
        · have hfs := parseFrameHeader_frameSize_pos hph
          rw [walkFuel_succ_header hpos hph, walkFuel_succ_header hpos hph]
          exact ih (by omega) (by omega)
      · have hd : audioEnd ≤ pos := by omega
        rw [walkFuel_done hd, walkFuel_done hd]

/-- With a budget covering the remaining bytes, the loop always
finishes. -/
theorem walkFuel_isSome {buf : Buffer} {audioEnd : Nat} :
    ∀ {fuel position frameCount : Nat} {f : Bool},
      audioEnd - position ≤ fuel →
      (walkFuel buf audioEnd fuel position frameCount f).isSome = true := by
  intro fuel
  induction fuel with
  | zero =>
    intro pos c f h
    rw [walkFuel_done (by omega)]
    rfl
  | succ fuel ih =>
    intro pos c f h
    by_cases hpos : pos < audioEnd
    · rcases hph : parseFrameHeader buf pos with _ | header
      · cases f with
        | false =>
          rw [walkFuel_succ_seek hpos hph]
          exact ih (by omega)
        | true =>
          rcases hrs : resyncScan buf audioEnd pos with _ | i
          · rw [walkFuel_succ_resync_none hpos hph hrs]
            rfl
          · obtain ⟨hi1, hi2, -, -, -⟩ := resyncScan_some_spec hrs
            rw [walkFuel_succ_resync_some hpos hph hrs]
            exact ih (by omega)
      · have hfs := parseFrameHeader_frameSize_pos hph
        rw [walkFuel_succ_header hpos hph]
        exact ih (by omega)
    · rw [walkFuel_done (by omega)]
      rfl

/-- `walk` is the value the loop finishes with. -/
theorem walkFuel_eq_walk {buf : Buffer} {audioEnd position frameCount : Nat} {f : Bool} :
    walkFuel buf audioEnd (audioEnd - position) position frameCount f =
      some (walk buf audioEnd position frameCount f) := by
  unfold walk
  rcases hw : walkFuel buf audioEnd (audioEnd - position) position frameCount f with _ | n
  · have := @walkFuel_isSome buf audioEnd (audioEnd - position) position
      frameCount f (Nat.le_refl _)
    rw [hw] at this
    simp at this
  · simp

/-- `walk` at or past `audioEnd` is the current count. -/
theorem walk_done {buf : Buffer} {audioEnd position : Nat}
    (h : audioEnd ≤ position) (frameCount : Nat) (f : Bool) :
    walk buf audioEnd position frameCount f = frameCount := by
  unfold walk
  rw [walkFuel_done h]
  rfl

/-- `walk`, header case. -/
theorem walk_header {buf : Buffer} {audioEnd position : Nat}
    {header : Mp3FrameHeader} (hpos : position < audioEnd)
    (hph : parseFrameHeader buf position = some header)
    (frameCount : Nat) (f : Bool) :
    walk buf audioEnd position frameCount f =
      walk buf audioEnd (position + header.frameSize)
        (if !f && isXingInfoFrame buf position header then frameCount else frameCount + 1)
        true := by
  have hfs := parseFrameHeader_frameSize_pos hph
  have h1 : audioEnd - position = (audioEnd - position - 1) + 1 := by omega
  have h2 := walkFuel_succ_header hpos hph (audioEnd - position - 1) frameCount f
  rw [← h1] at h2
  rw [walkFuel_eq_walk] at h2
  rw [walkFuel_fuel_irrel (by omega) (Nat.le_refl (audioEnd - (position + header.frameSize))),
    walkFuel_eq_walk] at h2
  injection h2

/-- `walk`, first-frame-seek case. -/
theorem walk_seek {buf : Buffer} {audioEnd position : Nat}
    (hpos : position < audioEnd) (hph : parseFrameHeader buf position = none)
    (frameCount : Nat) :
    walk buf audioEnd position frameCount false =
      walk buf audioEnd (position + 1) frameCount false := by
  have h1 : audioEnd - position = (audioEnd - position - 1) + 1 := by omega
  have h2 := walkFuel_succ_seek hpos hph (audioEnd - position - 1) frameCount
  rw [← h1] at h2
  rw [walkFuel_eq_walk] at h2
  rw [walkFuel_fuel_irrel (by omega) (Nat.le_refl (audioEnd - (position + 1))),
    walkFuel_eq_walk] at h2
  injection h2

/-- `walk`, successful resync. -/
theorem walk_resync_some {buf : Buffer} {audioEnd position i : Nat}
    (hpos : position < audioEnd) (hph : parseFrameHeader buf position = none)
    (hrs : resyncScan buf audioEnd position = some i) (frameCount : Nat) :
    walk buf audioEnd position frameCount true = walk buf audioEnd i frameCount true := by
  obtain ⟨hi1, hi2, -, -, -⟩ := resyncScan_some_spec hrs
  have h1 : audioEnd - position = (audioEnd - position - 1) + 1 := by omega
  have h2 := walkFuel_succ_resync_some hpos hph hrs
    (audioEnd - position - 1) frameCount
  rw [← h1] at h2
  rw [walkFuel_eq_walk] at h2
  rw [walkFuel_fuel_irrel (by omega) (Nat.le_refl (audioEnd - i)),
    walkFuel_eq_walk] at h2
  injection h2

/-- `walk`, failed resync: the walk ends with the current count and no
error. -/
theorem walk_resync_none {buf : Buffer} {audioEnd position : Nat}
    (hpos : position < audioEnd) (hph : parseFrameHeader buf position = none)
    (hrs : resyncScan buf audioEnd position = none) (frameCount : Nat) :
    walk buf audioEnd position frameCount true = frameCount := by
  have h1 : audioEnd - position = (audioEnd - position - 1) + 1 := by omega
  have h2 := walkFuel_succ_resync_none hpos hph hrs
    (audioEnd - position - 1) frameCount
  rw [← h1] at h2
  rw [walkFuel_eq_walk] at h2
  injection h2

/-! ### Claims about the synchsafe decoder -/

/-- C1, counterexample: on the byte `0x80` (high bit set) the source's
unmasked packing is neither the low-7-bits packing the claim describes
nor a 28-bit value. -/
theorem decodeSynchsafeInt_counterexample :
    decodeSynchsafeInt [0x80, 0, 0, 0] 0 = 268435456 ∧
    decodeSynchsafeSpec7 [0x80, 0, 0, 0] 0 = 0 ∧
    ¬ decodeSynchsafeInt [0x80, 0, 0, 0] 0 < 2 ^ 28 := by decide

/-- C1 (amended): `decodeSynchsafeInt` reads the 4 bytes at
`offset..offset+3` (any byte beyond the buffer end as zero) and packs the
raw bytes with `(b0<<21)|(b1<<14)|(b2<<7)|b3`, with no error case; only
when each byte's high bit is clear does this equal the 28-bit value
obtained by packing the low 7 bits of each byte MSB-first. -/
theorem decodeSynchsafeInt_amended :
    (∀ (buf : Buffer) (offset : Nat),
      decodeSynchsafeInt buf offset =
        ((getByte buf offset <<< 21) ||| (getByte buf (offset + 1) <<< 14) |||
          (getByte buf (offset + 2) <<< 7) ||| getByte buf (offset + 3))) ∧
    (∀ (buf : Buffer) (offset : Nat),
      getByte buf offset < 128 → getByte buf (offset + 1) < 128 →
      getByte buf (offset + 2) < 128 → getByte buf (offset + 3) < 128 →
      decodeSynchsafeInt buf offset = decodeSynchsafeSpec7 buf offset ∧
        decodeSynchsafeInt buf offset < 2 ^ 28) := by
  refine ⟨fun buf offset => rfl, fun buf offset h0 h1 h2 h3 => ?_⟩
  have m0 : getByte buf offset &&& 0x7F = getByte buf offset := by
    rw [and_127_eq_mod]; omega
  have m1 : getByte buf (offset + 1) &&& 0x7F = getByte buf (offset + 1) := by
    rw [and_127_eq_mod]; omega
  have m2 : getByte buf (offset + 2) &&& 0x7F = getByte buf (offset + 2) := by
    rw [and_127_eq_mod]; omega
  have m3 : getByte buf (offset + 3) &&& 0x7F = getByte buf (offset + 3) := by
    rw [and_127_eq_mod]; omega
  constructor
  · unfold decodeSynchsafeInt decodeSynchsafeSpec7
    rw [m0, m1, m2, m3]
  · unfold decodeSynchsafeInt
    rw [decode_eq_sum _ _ _ _ h1 h2 h3]
    norm_num
    omega

/-- C1, witness. -/
theorem decodeSynchsafeInt_amended_witness :
    decodeSynchsafeInt [1, 2, 3, 4] 0 = decodeSynchsafeSpec7 [1, 2, 3, 4] 0 ∧
      decodeSynchsafeInt [1, 2, 3, 4] 0 < 2 ^ 28 :=
  decodeSynchsafeInt_amended.2 [1, 2, 3, 4] 0 (by decide) (by decide) (by decide) (by decide)

/-- C9: for every 4-byte sequence with each byte's high bit clear,
re-encoding the decoded value at 7 bits per byte reproduces the original
bytes, and `[0x7F, 0x7F, 0x7F, 0x7F]` decodes to 268435455. -/
theorem synchsafe_roundtrip :
    (∀ b0 b1 b2 b3 : Nat, b0 < 128 → b1 < 128 → b2 < 128 → b3 < 128 →
      encodeSynchsafe7 (decodeSynchsafeInt [b0, b1, b2, b3] 0) = [b0, b1, b2, b3]) ∧
    decodeSynchsafeInt [0x7F, 0x7F, 0x7F, 0x7F] 0 = 268435455 := by
  refine ⟨fun b0 b1 b2 b3 h0 h1 h2 h3 => ?_, by decide⟩
  have e : decodeSynchsafeInt [b0, b1, b2, b3] 0 =
      (b0 <<< 21) ||| (b1 <<< 14) ||| (b2 <<< 7) ||| b3 := rfl
  rw [e, decode_eq_sum b0 b1 b2 b3 h1 h2 h3]
  unfold encodeSynchsafe7
  simp only [Nat.shiftRight_eq_div_pow, and_127_eq_mod, List.cons.injEq, and_true]
  norm_num
  refine ⟨?_, ?_, ?_, ?_⟩ <;> omega

/-- C9, witness. -/
theorem synchsafe_roundtrip_witness :
    encodeSynchsafe7 (decodeSynchsafeInt [1, 2, 3, 4] 0) = [1, 2, 3, 4] :=
  synchsafe_roundtrip.1 1 2 3 4 (by decide) (by decide) (by decide) (by decide)

theorem bitrate_table_isSome {idx : Nat} (h0 : idx ≠ 0) (h15 : idx ≠ 15) (hle : idx < 16) :
    ∃ br, BITRATE_TABLE_V1_L3.getD idx none = some br := by
  interval_cases idx <;> simp_all [BITRATE_TABLE_V1_L3]

theorem sample_rate_table_isSome {idx : Nat} (h3 : idx ≠ 3) (hle : idx < 4) :
    ∃ sr, SAMPLE_RATE_TABLE_V1.getD idx none = some sr := by
  interval_cases idx <;> simp_all [SAMPLE_RATE_TABLE_V1]

/-- C2: every header `parseFrameHeader` accepts carries
`frameSize = floor(144 * bitrate * 1000 / sampleRate) + padding`, always
at least 4 for the supported combinations, and exactly 417/418 for
128 kbps at 44100 Hz without/with padding. -/
theorem parseFrameHeader_frameSize_formula :
    ∀ (buf : Buffer) (off : Nat) (h : Mp3FrameHeader),
      parseFrameHeader buf off = some h →
      h.frameSize = 144 * h.bitrate * 1000 / h.sampleRate + (if h.hasPadding then 1 else 0) ∧
      4 ≤ h.frameSize ∧
      (h.bitrate = 128 → h.sampleRate = 44100 →
        h.frameSize = if h.hasPadding then 418 else 417) := by
  intro buf off h hp
  obtain ⟨-, -, -, -, -, -, -, hbr, hsr, hfs⟩ := parseFrameHeader_some_spec hp
  have hlb := frameSize_formula_lb hbr hsr
  refine ⟨hfs, by rw [hfs]; split <;> omega, ?_⟩
  intro hb hs
  rw [hfs, hb, hs]
  cases hpad : h.hasPadding <;> simp

/-- C2, witness. -/
theorem parseFrameHeader_frameSize_formula_witness :
    parseFrameHeader sampleFrame 0 = some sampleHeader ∧
    sampleHeader.frameSize =
      144 * sampleHeader.bitrate * 1000 / sampleHeader.sampleRate +
        (if sampleHeader.hasPadding then 1 else 0) ∧
    4 ≤ sampleHeader.frameSize ∧
    sampleHeader.frameSize = if sampleHeader.hasPadding then 418 else 417 := by
  have hp : parseFrameHeader sampleFrame 0 = some sampleHeader := by decide
  have h := parseFrameHeader_frameSize_formula sampleFrame 0 sampleHeader hp
  exact ⟨hp, h.1, h.2.1, h.2.2 rfl rfl⟩

/-- C4: `parseFrameHeader` returns `none` exactly on a short read, a
failed sync word, a non-MPEG-1 version, a non-Layer-III layer, a free/bad
bitrate index, or the reserved sample-rate index; otherwise it returns a
header whose `hasCrc` holds exactly when the protection bit is 0. -/
theorem parseFrameHeader_none_iff :
    ∀ (buf : Buffer) (off : Nat),
      (parseFrameHeader buf off = none ↔
        off + 4 > buf.length ∨
        ¬(getByte buf off = 0xFF ∧ getByte buf (off + 1) &&& 0xE0 = 0xE0) ∨
        (getByte buf (off + 1) >>> 3) &&& 3 ≠ MPEG_1 ∨
        (getByte buf (off + 1) >>> 1) &&& 3 ≠ LAYER_3 ∨
        (getByte buf (off + 2) >>> 4) &&& 0xF = 0 ∨
        (getByte buf (off + 2) >>> 4) &&& 0xF = 15 ∨
        (getByte buf (off + 2) >>> 2) &&& 3 = 3) ∧
      (∀ h, parseFrameHeader buf off = some h →
        (h.hasCrc = true ↔ getByte buf (off + 1) &&& 1 = 0)) := by
  intro buf off
  constructor
  · constructor
    · intro hnone
      by_contra hc
      push_neg at hc
      obtain ⟨hlen, hsync, hver, hlay, hbr0, hbr15, hsr3⟩ := hc
      have hsyncw : isValidSyncWord buf off = true := by
        unfold isValidSyncWord
        rw [if_neg (by omega)]
        simp [hsync.1, hsync.2]
      have hbrlt : (getByte buf (off + 2) >>> 4) &&& 0xF < 16 := by
        have : (getByte buf (off + 2) >>> 4) &&& 0xF ≤ 0xF := Nat.and_le_right
        omega
      have hsrlt : (getByte buf (off + 2) >>> 2) &&& 3 < 4 := by
        have : (getByte buf (off + 2) >>> 2) &&& 3 ≤ 3 := Nat.and_le_right
        omega
      obtain ⟨br, hbr⟩ := bitrate_table_isSome hbr0 hbr15 hbrlt
      obtain ⟨sr, hsr⟩ := sample_rate_table_isSome hsr3 hsrlt
      unfold parseFrameHeader at hnone
      rw [if_neg (by omega)] at hnone
      rw [if_neg (by simp [hsyncw])] at hnone
      rw [if_neg (by simp [hver])] at hnone
      rw [if_neg (by simp [hlay])] at hnone
      rw [hbr, hsr] at hnone
      simp at hnone
    · intro hdisj
      unfold parseFrameHeader
      rcases hdisj with hlen | hsync | hver | hlay | hbr0 | hbr15 | hsr3
      · rw [if_pos hlen]
      · have hsf : isValidSyncWord buf off = false := by
          unfold isValidSyncWord
          split
          · rfl
          · by_cases h0 : getByte buf off = 0xFF
            · have h1 : ¬(getByte buf (off + 1) &&& 0xE0 = 0xE0) := by tauto
              simp [h0, h1]
            · simp [h0]
        simp [hsf]
      · split_ifs <;> simp_all
      · split_ifs <;> simp_all
      · split_ifs <;> simp [hbr0, BITRATE_TABLE_V1_L3]
      · split_ifs <;> simp [hbr15, BITRATE_TABLE_V1_L3]
      · split_ifs <;>
          rcases hx : BITRATE_TABLE_V1_L3.getD ((getByte buf (off + 2) >>> 4) &&& 0xF) none
            with _ | br <;>
          simp [hx, hsr3, SAMPLE_RATE_TABLE_V1]
  · intro h hp
    obtain ⟨-, -, -, -, hcrc, -⟩ := parseFrameHeader_some_spec hp
    rw [hcrc]
    simp

/-- C4, witness. -/
theorem parseFrameHeader_none_iff_witness :
    parseFrameHeader sampleFrameCrc 0 = some sampleHeaderCrc ∧
    (sampleHeaderCrc.hasCrc = true ↔ getByte sampleFrameCrc 1 &&& 1 = 0) := by
  have hp : parseFrameHeader sampleFrameCrc 0 = some sampleHeaderCrc := by decide
  exact ⟨hp, (parseFrameHeader_none_iff sampleFrameCrc 0).2 sampleHeaderCrc hp⟩

/-- C3: `countMp3Frames` raises `EmptyFile` iff the buffer is empty;
otherwise `NoAudioData` iff the audio region `[audioStart, audioEnd)` is
empty or inverted, where `audioStart` is the ID3v2 tag's `totalSize` (0
without a tag) and `audioEnd` is `length - 128` exactly when an ID3v1 tag
is present; otherwise `NoValidFrames` iff the frame walk counts zero
frames; and in every other case it returns a result. -/
theorem countMp3Frames_error_cases :
    ∀ buf : Buffer,
      findAudioStart buf = (match parseId3v2Tag buf with
        | some tag => tag.totalSize
        | none => 0) ∧
      findAudioEnd buf = (if hasId3v1Tag buf then buf.length - 128 else buf.length) ∧
      (countMp3Frames buf = .error .emptyFile ↔ buf.length = 0) ∧
      (countMp3Frames buf = .error .noAudioData ↔
        buf.length ≠ 0 ∧ findAudioEnd buf ≤ findAudioStart buf) ∧
      (countMp3Frames buf = .error .noValidFrames ↔
        buf.length ≠ 0 ∧ findAudioStart buf < findAudioEnd buf ∧
          walk buf (findAudioEnd buf) (findAudioStart buf) 0 false = 0) ∧
      ((∃ r, countMp3Frames buf = .ok r) ↔
        buf.length ≠ 0 ∧ findAudioStart buf < findAudioEnd buf ∧
          walk buf (findAudioEnd buf) (findAudioStart buf) 0 false ≠ 0) := by
  intro buf
  refine ⟨rfl, rfl, ?_⟩
  simp only [countMp3Frames]
  split_ifs with h1 h2 h3 <;> simp_all

/-- C5, counterexample: `isXingInfoFrame` also accepts a marker whose
bytes only equal ASCII `Xing` after Node's `ascii` decoding drops the
high bit, so "the 4 bytes equal ASCII `Xing` or `Info`" does not hold. -/
theorem isXingInfoFrame_counterexample :
    parseFrameHeader xingMaskedBuf 0 = some sampleHeader ∧
    isXingInfoFrame xingMaskedBuf 0 sampleHeader = true ∧
    [getByte xingMaskedBuf 21, getByte xingMaskedBuf 22, getByte xingMaskedBuf 23,
      getByte xingMaskedBuf 24] ≠ [0x58, 0x69, 0x6E, 0x67] ∧
    [getByte xingMaskedBuf 21, getByte xingMaskedBuf 22, getByte xingMaskedBuf 23,
      getByte xingMaskedBuf 24] ≠ [0x49, 0x6E, 0x66, 0x6F] := by decide

/-- C5 (amended): `isXingInfoFrame` is true iff the 4 bytes at
`frameStart + 4 + (17 if mono else 32) + (2 if CRC else 0)`, each masked
to its low 7 bits (Node `ascii` decoding), equal ASCII `Xing` or `Info`,
and is false whenever that offset plus 4 exceeds the buffer length;
within the walk the check is applied only before the first frame has been
found, and a matching frame is not counted while the position still
advances by its `frameSize`. -/
theorem isXingInfoFrame_amended :
    (∀ (buf : Buffer) (off : Nat) (h : Mp3FrameHeader),
      isXingInfoFrame buf off h = true ↔
        (off + 4 + (if h.channelMode = MONO then 17 else 32) + (if h.hasCrc then 2 else 0))
            + 4 ≤ buf.length ∧
          ((List.range 4).map (fun k => getByte buf
              ((off + 4 + (if h.channelMode = MONO then 17 else 32) +
                (if h.hasCrc then 2 else 0)) + k) &&& 0x7F) =
            [0x58, 0x69, 0x6E, 0x67] ∨
           (List.range 4).map (fun k => getByte buf
              ((off + 4 + (if h.channelMode = MONO then 17 else 32) +
                (if h.hasCrc then 2 else 0)) + k) &&& 0x7F) =
            [0x49, 0x6E, 0x66, 0x6F])) ∧
    (∀ (buf : Buffer) (audioEnd pos c : Nat) (h : Mp3FrameHeader),
      pos < audioEnd → parseFrameHeader buf pos = some h →
      walk buf audioEnd pos c false =
        walk buf audioEnd (pos + h.frameSize)
          (if isXingInfoFrame buf pos h then c else c + 1) true ∧
      walk buf audioEnd pos c true =
        walk buf audioEnd (pos + h.frameSize) (c + 1) true) := by
  constructor
  · intro buf off h
    set xo := off + 4 + (if h.channelMode = MONO then 17 else 32) +
      (if h.hasCrc then 2 else 0) with hxo
    have hxo2 : (if h.hasCrc then
        (if h.channelMode == MONO then off + 4 + 17 else off + 4 + 32) + 2
        else (if h.channelMode == MONO then off + 4 + 17 else off + 4 + 32)) = xo := by
      rw [hxo]
      by_cases hc : h.hasCrc <;> by_cases hm : h.channelMode = MONO <;>
        simp [hc, hm]
    rw [isXingInfoFrame]
    simp only [hxo2]
    by_cases hlen : xo + 4 > buf.length
    · rw [if_pos hlen]
      constructor
      · intro hfalse
        exact absurd hfalse (by simp)
      · intro hconj
        omega
    · rw [if_neg hlen]
      have hmin : min (xo + 4) buf.length = xo + 4 := by omega
      have hslice : asciiSlice buf xo (xo + 4) =
          [getByte buf xo &&& 0x7F, getByte buf (xo + 1) &&& 0x7F,
           getByte buf (xo + 2) &&& 0x7F, getByte buf (xo + 3) &&& 0x7F] := by
        rw [asciiSlice, hmin]
        have h4 : xo + 4 - xo = 4 := by omega
        rw [h4]
        rfl
      have hmap : (List.range 4).map (fun k => getByte buf (xo + k) &&& 0x7F) =
          [getByte buf xo &&& 0x7F, getByte buf (xo + 1) &&& 0x7F,
           getByte buf (xo + 2) &&& 0x7F, getByte buf (xo + 3) &&& 0x7F] := by
        have hr : List.range 4 = [0, 1, 2, 3] := rfl
        rw [hr]
        simp [List.map_cons]
      rw [hslice, hmap]
      simp only [Bool.or_eq_true, beq_iff_eq]
      constructor
      · intro hd
        exact ⟨by omega, hd⟩
      · intro hd
        exact hd.2
  · intro buf audioEnd pos c h hpos hp
    constructor
    · rw [walk_header hpos hp]
      simp
    · rw [walk_header hpos hp]
      simp

/-- C5, witness. -/
theorem isXingInfoFrame_amended_witness :
    parseFrameHeader xingBuf 0 = some sampleHeader ∧
    walk xingBuf 25 0 0 false =
      walk xingBuf 25 (0 + sampleHeader.frameSize)
        (if isXingInfoFrame xingBuf 0 sampleHeader then 0 else 0 + 1) true ∧
    walk xingBuf 25 0 0 true =
      walk xingBuf 25 (0 + sampleHeader.frameSize) (0 + 1) true := by
  have hp : parseFrameHeader xingBuf 0 = some sampleHeader := by decide
  have h := isXingInfoFrame_amended.2 xingBuf 25 0 0 sampleHeader (by decide) hp
  exact ⟨hp, h.1, h.2⟩

/-- A parsable header implies a valid sync word and four in-bounds
bytes. -/
theorem parseFrameHeader_isSome_sync {buf : Buffer} {i : Nat}
    (hp : (parseFrameHeader buf i).isSome = true) :
    isValidSyncWord buf i = true ∧ i + 4 ≤ buf.length := by
  rw [Option.isSome_iff_exists] at hp
  obtain ⟨h, hph⟩ := hp
  obtain ⟨hb, hs, -⟩ := parseFrameHeader_some_spec hph
  exact ⟨hs, hb⟩

/-- The first-4096-bytes scan of `validateMp3Buffer` succeeds exactly
when some offset in the first 4096 bytes parses as a frame header. -/
theorem validate_scan_iff {buf : Buffer} :
    (List.range (min buf.length 4096)).any
        (fun i => isValidSyncWord buf i && (parseFrameHeader buf i).isSome) = true ↔
      ∃ i, i < 4096 ∧ (parseFrameHeader buf i).isSome = true := by
  rw [List.any_eq_true]
  constructor
  · rintro ⟨i, hmem, hp⟩
    rw [List.mem_range] at hmem
    rw [Bool.and_eq_true] at hp
    exact ⟨i, by omega, hp.2⟩
  · rintro ⟨i, hi, hp⟩
    obtain ⟨hsync, hbound⟩ := parseFrameHeader_isSome_sync hp
    refine ⟨i, ?_, ?_⟩
    · rw [List.mem_range]
      omega
    · rw [Bool.and_eq_true]
      exact ⟨hsync, hp⟩

/-- C6: when a parse fails after the first frame was found, the walker
scans `position+1` up to `min (position+4096) audioEnd` (exclusive) for
the first offset where the sync word validates and a header parses; on
success it moves there without counting, on failure the walk ends with
the current count and no error. -/
theorem resync_spec :
    ∀ (buf : Buffer) (audioEnd pos c : Nat),
      pos < audioEnd → parseFrameHeader buf pos = none →
      (∀ i, resyncScan buf audioEnd pos = some i →
        pos + 1 ≤ i ∧ i < min (pos + 4096) audioEnd ∧
        isValidSyncWord buf i = true ∧ (parseFrameHeader buf i).isSome = true ∧
        (∀ j, pos + 1 ≤ j → j < i →
          ¬(isValidSyncWord buf j = true ∧ (parseFrameHeader buf j).isSome = true)) ∧
        walk buf audioEnd pos c true = walk buf audioEnd i c true) ∧
      (resyncScan buf audioEnd pos = none →
        (∀ j, pos + 1 ≤ j → j < min (pos + 4096) audioEnd →
          ¬(isValidSyncWord buf j = true ∧ (parseFrameHeader buf j).isSome = true)) ∧
        walk buf audioEnd pos c true = c) := by
  intro buf audioEnd pos c hpos hph
  constructor
  · intro i hrs
    obtain ⟨h1, h2, h3, h4, h5⟩ := resyncScan_some_spec hrs
    exact ⟨h1, h2, h3, h4, h5, walk_resync_some hpos hph hrs c⟩
  · intro hrs
    exact ⟨resyncScan_none_spec hrs, walk_resync_none hpos hph hrs c⟩

/-- C6, witness. -/
theorem resync_spec_witness :
    resyncScan [0, 0xFF, 0xFB, 0x90, 0xC0] 5 0 = some 1 ∧
    walk [0, 0xFF, 0xFB, 0x90, 0xC0] 5 0 7 true =
      walk [0, 0xFF, 0xFB, 0x90, 0xC0] 5 1 7 true := by
  have h := resync_spec [0, 0xFF, 0xFB, 0x90, 0xC0] 5 0 7 (by decide) (by decide)
  exact ⟨by decide, (h.1 1 (by decide)).2.2.2.2.2⟩

/-- C7, counterexample: a buffer whose first three bytes only decode to
`ID3` after Node's `ascii` masking passes `validateMp3Buffer`, although
its raw bytes are not `ID3`, no sync word sits at offset 0, and no
offset in the first 4096 bytes parses as a header. -/
theorem validateMp3Buffer_counterexample :
    validateMp3Buffer maskedId3Buf = .ok () ∧
    [getByte maskedId3Buf 0, getByte maskedId3Buf 1, getByte maskedId3Buf 2] ≠
      [0x49, 0x44, 0x33] ∧
    isValidSyncWord maskedId3Buf 0 = false ∧
    (List.range 4096).all (fun i => (parseFrameHeader maskedId3Buf i).isNone) = true := by
  refine ⟨rfl, by decide, by decide, ?_⟩
  rw [List.all_eq_true]
  intro i hmem
  by_cases hi : i < 7
  · interval_cases i <;> decide
  · rcases hp : parseFrameHeader maskedId3Buf i with _ | h
    · rfl
    · obtain ⟨hb, -⟩ := parseFrameHeader_some_spec hp
      have hlen : maskedId3Buf.length = 10 := rfl
      omega

/-- C7 (amended): `validateMp3Buffer` raises `TooSmall` iff the length is
below 10; for longer buffers it succeeds iff the first 3 bytes masked to
their low 7 bits (Node `ascii` decoding) equal `ID3`, or a valid sync
word sits at offset 0, or some offset in the first 4096 bytes parses as
a frame header, and raises `NotRecognizable` exactly otherwise. -/
theorem validateMp3Buffer_amended :
    ∀ buf : Buffer,
      (validateMp3Buffer buf = .error .tooSmall ↔ buf.length < 10) ∧
      (10 ≤ buf.length →
        (validateMp3Buffer buf = .ok () ↔
          (asciiSlice buf 0 3 = [0x49, 0x44, 0x33] ∨ isValidSyncWord buf 0 = true ∨
            ∃ i, i < 4096 ∧ (parseFrameHeader buf i).isSome = true))) ∧
      (10 ≤ buf.length →
        (validateMp3Buffer buf = .error .notRecognizable ↔
          ¬(asciiSlice buf 0 3 = [0x49, 0x44, 0x33] ∨ isValidSyncWord buf 0 = true ∨
            ∃ i, i < 4096 ∧ (parseFrameHeader buf i).isSome = true))) := by
  intro buf
  simp only [validateMp3Buffer]
  by_cases ht : buf.length < 10
  · rw [if_pos ht]
    exact ⟨by simp [ht], fun hlen => by omega, fun hlen => by omega⟩
  · rw [if_neg ht]
    by_cases hid3 : asciiSlice buf 0 3 = [0x49, 0x44, 0x33]
    · have hcond : (!(asciiSlice buf 0 3 == [0x49, 0x44, 0x33]) && !isValidSyncWord buf 0)
          = false := by simp [hid3]
      rw [hcond]
      simp only [Bool.false_eq_true, if_false]
      refine ⟨by simp [ht], fun hlen => ?_, fun hlen => ?_⟩
      · simp only [true_iff]
        exact Or.inl hid3
      · constructor
        · intro hfalse
          exact absurd hfalse (by simp)
        · intro hneg
          exact absurd (Or.inl hid3) hneg
    · by_cases hsync : isValidSyncWord buf 0 = true
      · have hcond : (!(asciiSlice buf 0 3 == [0x49, 0x44, 0x33]) && !isValidSyncWord buf 0)
            = false := by simp [hsync]
        rw [hcond]
        simp only [Bool.false_eq_true, if_false]
        refine ⟨by simp [ht], fun hlen => ?_, fun hlen => ?_⟩
        · simp only [true_iff]
          exact Or.inr (Or.inl hsync)
        · constructor
          · intro hfalse
            exact absurd hfalse (by simp)
          · intro hneg
            exact absurd (Or.inr (Or.inl hsync)) hneg
      · have hcond : (!(asciiSlice buf 0 3 == [0x49, 0x44, 0x33]) && !isValidSyncWord buf 0)
            = true := by simp [hid3, hsync]
        rw [hcond]
        simp only [if_true]
        by_cases hscan : (List.range (min buf.length 4096)).any
            (fun i => isValidSyncWord buf i && (parseFrameHeader buf i).isSome) = true
        · rw [hscan]
          simp only [if_true]
          refine ⟨by simp [ht], fun hlen => ?_, fun hlen => ?_⟩
          · simp only [true_iff]
            exact Or.inr (Or.inr (validate_scan_iff.mp hscan))
          · constructor
            · intro hfalse
              exact absurd hfalse (by simp)
            · intro hneg
              exact absurd (Or.inr (Or.inr (validate_scan_iff.mp hscan))) hneg
        · have hscanf : (List.range (min buf.length 4096)).any
              (fun i => isValidSyncWord buf i && (parseFrameHeader buf i).isSome) = false := by
            simp only [Bool.not_eq_true] at hscan
            exact hscan
          rw [hscanf]
          simp only [Bool.false_eq_true, if_false]
          have hnodisj : ¬(asciiSlice buf 0 3 = [0x49, 0x44, 0x33] ∨
              isValidSyncWord buf 0 = true ∨
              ∃ i, i < 4096 ∧ (parseFrameHeader buf i).isSome = true) := by
            intro hdisj
            rcases hdisj with hd | hd | hd
            · exact hid3 hd
            · exact hsync hd
            · exact hscan (validate_scan_iff.mpr hd)
          refine ⟨by simp [ht], fun hlen => ?_, fun hlen => ?_⟩
          · constructor
            · intro hfalse
              exact absurd hfalse (by simp)
            · intro hdisj
              exact absurd hdisj hnodisj
          · constructor
            · intro _
              exact hnodisj
            · intro _
              trivial

/-- C7, witness. -/
theorem validateMp3Buffer_amended_witness :
    validateMp3Buffer sampleFrameCrc = .error .tooSmall ∧
    validateMp3Buffer maskedId3Buf = .ok () := by
  refine ⟨?_, ?_⟩
  · exact (validateMp3Buffer_amended sampleFrameCrc).1.mpr (by decide)
  · exact ((validateMp3Buffer_amended maskedId3Buf).2.1 (by decide)).mpr
      (Or.inl (by decide))

/-- C8: whenever the parsed ID3v2 tag's `totalSize` reaches or exceeds
the computed `audioEnd` (in particular when it exceeds the buffer
length), `countMp3Frames` raises `NoAudioData` before any frame walk; an
implausible tag size is never turned into a frame count. -/
theorem implausible_tag_noAudioData :
    ∀ (buf : Buffer) (tag : Id3v2Tag),
      parseId3v2Tag buf = some tag → findAudioEnd buf ≤ tag.totalSize →
      countMp3Frames buf = .error .noAudioData := by
  intro buf tag hp hsz
  have hlen : 10 ≤ buf.length := by
    by_contra hc
    push_neg at hc
    unfold parseId3v2Tag at hp
    rw [if_pos hc] at hp
    exact absurd hp (by simp)
  have hstart : findAudioStart buf = tag.totalSize := by
    unfold findAudioStart
    rw [hp]
  simp only [countMp3Frames]
  rw [if_neg (by omega), if_pos (by rw [hstart]; exact hsz)]

/-- C8, witness. -/
theorem implausible_tag_noAudioData_witness :
    parseId3v2Tag id3HugeBuf = some id3HugeTag ∧
    findAudioEnd id3HugeBuf ≤ id3HugeTag.totalSize ∧
    countMp3Frames id3HugeBuf = .error .noAudioData := by
  have hp : parseId3v2Tag id3HugeBuf = some id3HugeTag := by decide
  exact ⟨hp, by decide, implausible_tag_noAudioData id3HugeBuf id3HugeTag hp (by decide)⟩

/-- C10: the walk loop of `countMp3Frames` terminates on every buffer:
with any iteration budget of at least `audioEnd - position` (at the top
level, `audioEnd - audioStart`) the budgeted loop finishes, yielding the
walk's result — every iteration strictly advances the position or exits
the loop. -/
theorem walkFuel_complete :
    ∀ (buf : Buffer) (audioEnd fuel position frameCount : Nat) (f : Bool),
      audioEnd - position ≤ fuel →
      walkFuel buf audioEnd fuel position frameCount f =
        some (walk buf audioEnd position frameCount f) := by
  intro buf audioEnd fuel pos c f h
  rw [walkFuel_fuel_irrel h (Nat.le_refl (audioEnd - pos)), walkFuel_eq_walk]

/-- C10, witness. -/
theorem walkFuel_complete_witness :
    walkFuel [0xFF, 0xFB, 0x90, 0xC0, 0, 0] 6 6 0 0 false =
      some (walk [0xFF, 0xFB, 0x90, 0xC0, 0, 0] 6 0 0 false) :=
  walkFuel_complete [0xFF, 0xFB, 0x90, 0xC0, 0, 0] 6 6 0 0 false (by decide)
